import Mathlib

/-!
Shallow embedding of `src/core/renderers/measurables/rows.js` (Blockly block
rendering: Row, TopRow, BottomRow, SpacerRow, InputRow and their `populate`
and `measure` operations).

JavaScript numbers are modelled as `Int` (the module only adds, subtracts and
takes maxima of layout sizes; no division or fractional constants appear in
the measured code paths, and negative values must be representable).
Mutation of a row object is modelled by functional update: each method takes
the row and returns the updated row.  A loop `for (e = 0; ...; e++)` over
`this.elements` that mutates a fixed set of numeric fields is modelled as a
recursion over the element list carrying those fields as an accumulator.
-/

namespace Blockly

/-- A child element of a row (a "measurable").  The element classes
(SquareCorner, RoundCorner, Hat, InRowSpacer, PreviousConnection,
NextConnection, the input classes) live in `measurables.js`, which is not part
of the reviewed sources; `rows.js` reads these fields of an element: its
`type` string tag, its `isInput` flag, its `width`, `height`, `startY`,
`connectedBlockWidth` and `connectionWidth` numbers, and its `isSpacer()`
method. -/
structure Measurable where
  mtype : String
  isInput : Bool
  width : Int
  height : Int
  startY : Int
  connectedBlockWidth : Int
  connectionWidth : Int
deriving Repr, DecidableEq

/-- Modelled from the spec: the glossary defines a Spacer as "a zero-content
element only providing layout gap"; `measurables.js` (absent from the
sources) gives every measurable an `isSpacer()` method distinguishing spacer
elements, which we model by the `type` tag. -/
def Measurable.isSpacer (m : Measurable) : Bool :=
  m.mtype = "spacer"

/-- Rendering constants (`Blockly.blockRendering.constants`, absent from the
sources): paddings, the notch shape, and the sizes the element constructors
in `measurables.js` read from the constants module.  All theorems are
quantified over these values. -/
structure Constants where
  mediumPadding : Int := 0
  largePadding : Int := 0
  notchHeight : Int := 0
  squareCornerWidth : Int := 0
  squareCornerHeight : Int := 0
  roundCornerWidth : Int := 0
  roundCornerHeight : Int := 0
  hatWidth : Int := 0
  hatHeight : Int := 0
  hatStartY : Int := 0
  prevConnWidth : Int := 0
  prevConnHeight : Int := 0
  nextConnWidth : Int := 0
  nextConnHeight : Int := 0
  spacerHeight : Int := 0
deriving Repr, DecidableEq

/-- Modelled from the spec: `new Blockly.blockRendering.SquareCorner()`
(constructor in `measurables.js`, absent): a decorative corner element. -/
def mkSquareCorner (c : Constants) : Measurable :=
  { mtype := "square corner", isInput := false, width := c.squareCornerWidth,
    height := c.squareCornerHeight, startY := 0, connectedBlockWidth := 0,
    connectionWidth := 0 }

/-- Modelled from the spec: `new Blockly.blockRendering.RoundCorner()`. -/
def mkRoundCorner (c : Constants) : Measurable :=
  { mtype := "round corner", isInput := false, width := c.roundCornerWidth,
    height := c.roundCornerHeight, startY := 0, connectedBlockWidth := 0,
    connectionWidth := 0 }

/-- Modelled from the spec: `new Blockly.blockRendering.Hat()`; a hat element
carries a `startY` drawing offset read by `TopRow.populate` and
`TopRow.measure`. -/
def mkHat (c : Constants) : Measurable :=
  { mtype := "hat", isInput := false, width := c.hatWidth,
    height := c.hatHeight, startY := c.hatStartY, connectedBlockWidth := 0,
    connectionWidth := 0 }

/-- Modelled from the spec: `new Blockly.blockRendering.PreviousConnection(...)`. -/
def mkPreviousConnection (c : Constants) : Measurable :=
  { mtype := "previous connection", isInput := false, width := c.prevConnWidth,
    height := c.prevConnHeight, startY := 0, connectedBlockWidth := 0,
    connectionWidth := 0 }

/-- Modelled from the spec: `new Blockly.blockRendering.NextConnection(...)`;
its `type` tag is the string tested by `BottomRow.measure`. -/
def mkNextConnection (c : Constants) : Measurable :=
  { mtype := "next connection", isInput := false, width := c.nextConnWidth,
    height := c.nextConnHeight, startY := 0, connectedBlockWidth := 0,
    connectionWidth := 0 }

/-- Modelled from the spec: `new Blockly.blockRendering.InRowSpacer(width)`:
a spacer element of the given width. -/
def mkInRowSpacer (c : Constants) (width : Int) : Measurable :=
  { mtype := "spacer", isInput := false, width := width,
    height := c.spacerHeight, startY := 0, connectedBlockWidth := 0,
    connectionWidth := 0 }

/-- The `type` of an entry of `block.inputList`; `rows.js` only compares it
with `Blockly.NEXT_STATEMENT`. -/
inductive InputKind where
  | nextStatement
  | other
deriving Repr, DecidableEq

/-- The host block (`Blockly.BlockSvg`, external to the sources): exactly the
flags and accessors `rows.js` reads.  `hasPrevBlock` models
`getPreviousBlock()` returning a block; `prevNextIsSelf` models
`prevBlock.getNextBlock() == block`; `hasNextBlock` models `getNextBlock()`
returning a block. -/
structure Block where
  hat : Option String := none
  hasPreviousConnection : Bool := false
  hasOutputConnection : Bool := false
  hasNextConnection : Bool := false
  hasPrevBlock : Bool := false
  prevNextIsSelf : Bool := false
  hasNextBlock : Bool := false
  inputList : List InputKind := []
  isCollapsed : Bool := false
  inputsInline : Bool := false
deriving Repr, DecidableEq

/-- JavaScript truthiness of the string-or-undefined field `block.hat`
(`undefined` and the empty string are falsy). -/
def jsTruthyOptStr : Option String → Bool
  | some s => s ≠ ""
  | none => false

/-- `var hasHat = block.hat ? block.hat === 'cap' : Blockly.BlockSvg.START_HAT;`
where `START_HAT` is a global flag passed in as `startHat`. -/
def Block.hasHat (b : Block) (startHat : Bool) : Bool :=
  if jsTruthyOptStr b.hat then b.hat = some "cap" else startHat

/-- The fields set by the `Blockly.blockRendering.Row` base constructor.
`notchShape` on the prototype is covered by `Constants.notchHeight`. -/
structure Row where
  rtype : String := "row"
  elements : List Measurable := []
  height : Int := 0
  width : Int := 0
  minHeight : Int := 0
  minWidth : Int := 0
  widthWithConnectedBlocks : Int := 0
  yPos : Int := 0
  xPos : Int := 0
  hasExternalInput : Bool := false
  hasStatement : Bool := false
  hasInlineInput : Bool := false
  hasDummyInput : Bool := false
  hasJaggedEdge : Bool := false
deriving Repr, DecidableEq

/-- `Row.prototype.measure`: `throw Error('Unexpected attempt to measure a
base Row.')`.  A throwing method is modelled in `Except`. -/
def Row.measureBase (_ : Row) : Except String Row :=
  Except.error "Unexpected attempt to measure a base Row."

/-- The loop body of `getFirstSpacer` / `getLastSpacer` tests the property
access `elem.isSpacer` — the method object itself, without calling it.  Every
measurable has the `isSpacer` method (`measure` calls `elem.isSpacer()` on
every element), and a function object is always truthy in JavaScript. -/
def isSpacerMethodRef (_ : Measurable) : Bool := true

/-- `for (var i = 0, elem; elem = this.elements[i]; i++) { if (elem.isSpacer)
return elem; } return null;` — the loop over the element list (elements are
objects, hence truthy, so the loop condition fails exactly past the end). -/
def findSpacerByRef : List Measurable → Option Measurable
  | [] => none
  | e :: rest => if isSpacerMethodRef e then some e else findSpacerByRef rest

/-- `Row.prototype.getFirstSpacer`. -/
def Row.getFirstSpacer (r : Row) : Option Measurable :=
  findSpacerByRef r.elements

/-- `Row.prototype.getLastSpacer`: the same test, iterating from index
`elements.length - 1` downwards. -/
def Row.getLastSpacer (r : Row) : Option Measurable :=
  findSpacerByRef r.elements.reverse

/-- The fields of a `Blockly.blockRendering.TopRow` (base constructor fields
plus the three set by the `TopRow` constructor). -/
structure TopRow where
  rtype : String := "top row"
  elements : List Measurable := []
  height : Int := 0
  width : Int := 0
  minHeight : Int := 0
  minWidth : Int := 0
  widthWithConnectedBlocks : Int := 0
  yPos : Int := 0
  xPos : Int := 0
  hasExternalInput : Bool := false
  hasStatement : Bool := false
  hasInlineInput : Bool := false
  hasDummyInput : Bool := false
  hasJaggedEdge : Bool := false
  startY : Int := 0
  hasPreviousConnection : Bool := false
  connection : Option Measurable := none
deriving Repr, DecidableEq

/-- `new Blockly.blockRendering.TopRow()`. -/
def TopRow.init : TopRow := {}

/-- `TopRow.prototype.populate(block)`, with the global `START_HAT` flag and
the constants module passed explicitly. -/
def TopRow.populate (c : Constants) (startHat : Bool) (b : Block) (r : TopRow) : TopRow :=
  let hasHat := b.hasHat startHat
  let hasPrevious := b.hasPreviousConnection
  let squareCorner := b.hasOutputConnection || hasHat ||
    (b.hasPrevBlock && b.prevNextIsSelf)
  let r :=
    if squareCorner then
      { r with elements := r.elements ++ [mkSquareCorner c] }
    else
      { r with elements := r.elements ++ [mkRoundCorner c] }
  let r :=
    if hasHat then
      let hat := mkHat c
      { r with elements := r.elements ++ [hat], startY := hat.startY }
    else if hasPrevious then
      let conn := mkPreviousConnection c
      { r with hasPreviousConnection := true, connection := some conn,
               elements := r.elements ++ [conn] }
    else r
  let precedesStatement := (b.inputList.length != 0) &&
    (b.inputList.head? = some InputKind.nextStatement)
  if precedesStatement && !b.isCollapsed then
    { r with minHeight := c.largePadding }
  else
    { r with minHeight := c.mediumPadding }

/-- The body of the loop in `TopRow.prototype.measure`, acting on the fields
it mutates: `(this.width, this.height, this.startY)`. -/
def topMeasureStep (acc : Int × Int × Int) (elem : Measurable) : Int × Int × Int :=
  let w := acc.1 + elem.width
  let h := acc.2.1
  let s := acc.2.2
  if !elem.isSpacer then
    if elem.mtype = "hat" then
      let s := elem.startY
      let h := h + elem.height
      (w, max h elem.height, s)
    else
      (w, max h elem.height, s)
  else
    (w, h, s)

def topMeasureLoop (acc : Int × Int × Int) : List Measurable → Int × Int × Int
  | [] => acc
  | e :: rest => topMeasureLoop (topMeasureStep acc e) rest

/-- `TopRow.prototype.measure`. -/
def TopRow.measure (r : TopRow) : TopRow :=
  let acc := topMeasureLoop (r.minWidth, r.minHeight, r.startY) r.elements
  { r with width := acc.1, height := acc.2.1, startY := acc.2.2,
           widthWithConnectedBlocks := acc.1 }

/-- The fields of a `Blockly.blockRendering.BottomRow`. -/
structure BottomRow where
  rtype : String := "bottom row"
  elements : List Measurable := []
  height : Int := 0
  width : Int := 0
  minHeight : Int := 0
  minWidth : Int := 0
  widthWithConnectedBlocks : Int := 0
  yPos : Int := 0
  xPos : Int := 0
  hasExternalInput : Bool := false
  hasStatement : Bool := false
  hasInlineInput : Bool := false
  hasDummyInput : Bool := false
  hasJaggedEdge : Bool := false
  hasNextConnection : Bool := false
  connection : Option Measurable := none
  overhangY : Int := 0
  hasFixedWidth : Bool := false
deriving Repr, DecidableEq

/-- `new Blockly.blockRendering.BottomRow()`. -/
def BottomRow.init : BottomRow := {}

/-- `BottomRow.prototype.populate(block)`. -/
def BottomRow.populate (c : Constants) (b : Block) (r : BottomRow) : BottomRow :=
  let r := { r with hasNextConnection := b.hasNextConnection }
  let followsStatement := (b.inputList.length != 0) &&
    (b.inputList.getLast? = some InputKind.nextStatement)
  let r := { r with hasFixedWidth := followsStatement && b.inputsInline }
  let r :=
    if followsStatement then
      { r with minHeight := c.largePadding }
    else
      { r with minHeight := c.notchHeight }
  let squareCorner := b.hasOutputConnection || b.hasNextBlock
  let r :=
    if squareCorner then
      { r with elements := r.elements ++ [mkSquareCorner c] }
    else
      { r with elements := r.elements ++ [mkRoundCorner c] }
  if r.hasNextConnection then
    let conn := mkNextConnection c
    { r with connection := some conn, elements := r.elements ++ [conn] }
  else r

/-- The body of the loop in `BottomRow.prototype.measure`, acting on
`(this.width, this.height, this.overhangY)`. -/
def bottomMeasureStep (acc : Int × Int × Int) (elem : Measurable) : Int × Int × Int :=
  let w := acc.1 + elem.width
  let h := acc.2.1
  let oy := acc.2.2
  if !elem.isSpacer then
    if elem.mtype = "next connection" then
      let h := h + elem.height
      let oy := elem.height
      (w, max h elem.height, oy)
    else
      (w, max h elem.height, oy)
  else
    (w, h, oy)

def bottomMeasureLoop (acc : Int × Int × Int) : List Measurable → Int × Int × Int
  | [] => acc
  | e :: rest => bottomMeasureLoop (bottomMeasureStep acc e) rest

/-- `BottomRow.prototype.measure`. -/
def BottomRow.measure (r : BottomRow) : BottomRow :=
  let acc := bottomMeasureLoop (r.minWidth, r.minHeight, r.overhangY) r.elements
  { r with width := acc.1, height := acc.2.1, overhangY := acc.2.2,
           widthWithConnectedBlocks := acc.1 }

/-- The fields set by the `Blockly.blockRendering.SpacerRow` constructor (it
does not invoke the base `Row` constructor; only these fields exist). -/
structure SpacerRow where
  rtype : String
  width : Int
  height : Int
  followsStatement : Bool
  widthWithConnectedBlocks : Int
  elements : List Measurable
deriving Repr, DecidableEq

/-- `new Blockly.blockRendering.SpacerRow(height, width)`. -/
def SpacerRow.make (c : Constants) (height width : Int) : SpacerRow :=
  { rtype := "between-row spacer", width := width, height := height,
    followsStatement := false, widthWithConnectedBlocks := 0,
    elements := [mkInRowSpacer c width] }

/-- `SpacerRow.prototype.measure`: "NOP.  Width and height were set at
creation." -/
def SpacerRow.measure (r : SpacerRow) : SpacerRow := r

/-- The fields of a `Blockly.blockRendering.InputRow` (the constructor only
overrides `type`). -/
structure InputRow where
  rtype : String := "input row"
  elements : List Measurable := []
  height : Int := 0
  width : Int := 0
  minHeight : Int := 0
  minWidth : Int := 0
  widthWithConnectedBlocks : Int := 0
  yPos : Int := 0
  xPos : Int := 0
  hasExternalInput : Bool := false
  hasStatement : Bool := false
  hasInlineInput : Bool := false
  hasDummyInput : Bool := false
  hasJaggedEdge : Bool := false
deriving Repr, DecidableEq

/-- `new Blockly.blockRendering.InputRow()`. -/
def InputRow.init : InputRow := {}

/-- The body of the loop in `InputRow.prototype.measure`, acting on
`(this.width, this.height, connectedBlockWidths)`. -/
def inputMeasureStep (acc : Int × Int × Int) (elem : Measurable) : Int × Int × Int :=
  let w := acc.1 + elem.width
  let h := acc.2.1
  let cbw := acc.2.2
  let cbw :=
    if elem.isInput then
      if elem.mtype = "statement input" then
        cbw + elem.connectedBlockWidth
      else if elem.mtype = "external value input" ∧
          elem.connectedBlockWidth ≠ 0 then
        cbw + (elem.connectedBlockWidth - elem.connectionWidth)
      else cbw
    else cbw
  let h := if !elem.isSpacer then max h elem.height else h
  (w, h, cbw)

def inputMeasureLoop (acc : Int × Int × Int) : List Measurable → Int × Int × Int
  | [] => acc
  | e :: rest => inputMeasureLoop (inputMeasureStep acc e) rest

/-- `InputRow.prototype.measure`. -/
def InputRow.measure (r : InputRow) : InputRow :=
  let acc := inputMeasureLoop (r.minWidth, r.minHeight, 0) r.elements
  { r with width := acc.1, height := acc.2.1,
           widthWithConnectedBlocks := acc.1 + acc.2.2 }

/-- A row object as seen through dynamic dispatch of the `measure` method:
one of the four concrete row classes, or a base `Row` (whose `measure`
throws). -/
inductive RowObj where
  | base (r : Row)
  | top (r : TopRow)
  | bottom (r : BottomRow)
  | spacer (r : SpacerRow)
  | input (r : InputRow)
deriving Repr, DecidableEq

/-- Dynamic dispatch of `measure`: the base class throws, every concrete row
class returns normally. -/
def RowObj.measure : RowObj → Except String RowObj
  | .base _ => Except.error "Unexpected attempt to measure a base Row."
  | .top r => Except.ok (.top r.measure)
  | .bottom r => Except.ok (.bottom r.measure)
  | .spacer r => Except.ok (.spacer r.measure)
  | .input r => Except.ok (.input r.measure)

example : (TopRow.measure { TopRow.init with
    minHeight := 2,
    elements := [mkHat { hatHeight := 3 }] }).height = 5 := by decide

example : (TopRow.measure { TopRow.init with
    minWidth := 4,
    elements := [mkInRowSpacer {} 2, mkHat { hatWidth := 5 }] }).width = 11 := by
  decide

/-! Specification-side definitions, written from the claims' wording ("sum
widths, take max heights over child elements", "adding connected block widths
of statement and external value inputs"), to be compared with the loops
above. -/

/-- The sum of the widths of a list of elements. -/
def sumWidths (es : List Measurable) : Int :=
  (es.map Measurable.width).sum

/-- The maximum of a starting height and the heights of the non-spacer
elements of a list. -/
def maxNonSpacerHeight (h0 : Int) (es : List Measurable) : Int :=
  es.foldl (fun h e => if e.isSpacer then h else max h e.height) h0

/-- The connected-block width contributed by one element, per the claims:
statement inputs contribute their connected block width; external value
inputs with a nonzero connected block width contribute it minus the
connection width; nothing else contributes. -/
def connectedWidthContribution (e : Measurable) : Int :=
  if e.isInput then
    if e.mtype = "statement input" then e.connectedBlockWidth
    else if e.mtype = "external value input" ∧ e.connectedBlockWidth ≠ 0 then
      e.connectedBlockWidth - e.connectionWidth
    else 0
  else 0

/-- The total connected-block width contributed by a list of elements. -/
def connectedWidthsSum (es : List Measurable) : Int :=
  (es.map connectedWidthContribution).sum

theorem sumWidths_nil : sumWidths [] = 0 := rfl

theorem sumWidths_cons (e : Measurable) (es : List Measurable) :
    sumWidths (e :: es) = e.width + sumWidths es := by
  simp [sumWidths]

theorem maxNonSpacerHeight_cons (h0 : Int) (e : Measurable) (es : List Measurable) :
    maxNonSpacerHeight h0 (e :: es) =
      maxNonSpacerHeight (if e.isSpacer then h0 else max h0 e.height) es := rfl

/-! Lemmas about the loop of `TopRow.measure`. -/

theorem topMeasureStep_fst (acc : Int × Int × Int) (e : Measurable) :
    (topMeasureStep acc e).1 = acc.1 + e.width := by
  simp only [topMeasureStep]
  split
  · split <;> rfl
  · rfl

theorem topMeasureStep_of_hat (acc : Int × Int × Int) (e : Measurable)
    (h : e.mtype = "hat") :
    topMeasureStep acc e =
      (acc.1 + e.width, max (acc.2.1 + e.height) e.height, e.startY) := by
  have hsp : e.isSpacer = false := by simp [Measurable.isSpacer, h]
  simp [topMeasureStep, hsp, h]

theorem topMeasureStep_snd_of_not_hat (acc : Int × Int × Int) (e : Measurable)
    (h : e.mtype ≠ "hat") :
    (topMeasureStep acc e).2 =
      (if e.isSpacer then acc.2.1 else max acc.2.1 e.height, acc.2.2) := by
  cases hsp : e.isSpacer <;> simp [topMeasureStep, hsp, h]

theorem topMeasureLoop_fst (es : List Measurable) :
    ∀ acc : Int × Int × Int, (topMeasureLoop acc es).1 = acc.1 + sumWidths es := by
  induction es with
  | nil => intro acc; simp [topMeasureLoop, sumWidths]
  | cons e rest ih =>
    intro acc
    rw [topMeasureLoop, ih, topMeasureStep_fst, sumWidths_cons]
    ring

theorem topMeasureLoop_height_of_no_hat (es : List Measurable) :
    ∀ acc : Int × Int × Int, (∀ e ∈ es, e.mtype ≠ "hat") →
      (topMeasureLoop acc es).2.1 = maxNonSpacerHeight acc.2.1 es := by
  induction es with
  | nil => intro acc _; rfl
  | cons e rest ih =>
    intro acc hall
    rw [topMeasureLoop, maxNonSpacerHeight_cons,
      ih _ (fun x hx => hall x (List.mem_cons_of_mem _ hx))]
    have he : (topMeasureStep acc e).2 =
        (if e.isSpacer then acc.2.1 else max acc.2.1 e.height, acc.2.2) :=
      topMeasureStep_snd_of_not_hat acc e (hall e (List.mem_cons_self _ _))
    rw [he]

theorem topMeasureLoop_startY_of_no_hat (es : List Measurable) :
    ∀ acc : Int × Int × Int, (∀ e ∈ es, e.mtype ≠ "hat") →
      (topMeasureLoop acc es).2.2 = acc.2.2 := by
  induction es with
  | nil => intro acc _; rfl
  | cons e rest ih =>
    intro acc hall
    rw [topMeasureLoop, ih _ (fun x hx => hall x (List.mem_cons_of_mem _ hx))]
    have he : (topMeasureStep acc e).2 =
        (if e.isSpacer then acc.2.1 else max acc.2.1 e.height, acc.2.2) :=
      topMeasureStep_snd_of_not_hat acc e (hall e (List.mem_cons_self _ _))
    rw [he]

theorem topMeasureLoop_append (es1 es2 : List Measurable) :
    ∀ acc : Int × Int × Int,
      topMeasureLoop acc (es1 ++ es2) = topMeasureLoop (topMeasureLoop acc es1) es2 := by
  induction es1 with
  | nil => intro acc; rfl
  | cons e rest ih =>
    intro acc
    rw [List.cons_append, topMeasureLoop, topMeasureLoop, ih]

/-- Row used in the counterexample to claim C1: a top row with minimum height
2 whose single element is a hat of height 3. -/
def c1CexRow : TopRow := { TopRow.init with
  minHeight := 2,
  elements := [mkHat { hatHeight := 3 }] }

/-- C1 counterexample: the claim says measure sets the height of every
concrete row to the maximum of its minHeight and the heights of its
non-spacer child elements, but `TopRow.measure` first adds a hat element's
height to the running height and then takes the max, so a top row with
minHeight 2 and a hat of height 3 measures to height 5, not max(2, 3) = 3. -/
theorem measure_sum_max_claim_cex :
    ¬ ((TopRow.measure c1CexRow).width =
        c1CexRow.minWidth + sumWidths c1CexRow.elements ∧
      (TopRow.measure c1CexRow).height =
        maxNonSpacerHeight c1CexRow.minHeight c1CexRow.elements) := by
  decide

/-! Lemmas about the loop of `BottomRow.measure`. -/

theorem bottomMeasureStep_fst (acc : Int × Int × Int) (e : Measurable) :
    (bottomMeasureStep acc e).1 = acc.1 + e.width := by
  simp only [bottomMeasureStep]
  split
  · split <;> rfl
  · rfl

theorem bottomMeasureStep_of_conn (acc : Int × Int × Int) (e : Measurable)
    (h : e.mtype = "next connection") :
    bottomMeasureStep acc e =
      (acc.1 + e.width, max (acc.2.1 + e.height) e.height, e.height) := by
  have hsp : e.isSpacer = false := by simp [Measurable.isSpacer, h]
  simp [bottomMeasureStep, hsp, h]

theorem bottomMeasureStep_snd_of_not_conn (acc : Int × Int × Int) (e : Measurable)
    (h : e.mtype ≠ "next connection") :
    (bottomMeasureStep acc e).2 =
      (if e.isSpacer then acc.2.1 else max acc.2.1 e.height, acc.2.2) := by
  cases hsp : e.isSpacer <;> simp [bottomMeasureStep, hsp, h]

theorem bottomMeasureLoop_fst (es : List Measurable) :
    ∀ acc : Int × Int × Int, (bottomMeasureLoop acc es).1 = acc.1 + sumWidths es := by
  induction es with
  | nil => intro acc; simp [bottomMeasureLoop, sumWidths]
  | cons e rest ih =>
    intro acc
    rw [bottomMeasureLoop, ih, bottomMeasureStep_fst, sumWidths_cons]
    ring

theorem bottomMeasureLoop_height_of_no_conn (es : List Measurable) :
    ∀ acc : Int × Int × Int, (∀ e ∈ es, e.mtype ≠ "next connection") →
      (bottomMeasureLoop acc es).2.1 = maxNonSpacerHeight acc.2.1 es := by
  induction es with
  | nil => intro acc _; rfl
  | cons e rest ih =>
    intro acc hall
    rw [bottomMeasureLoop, maxNonSpacerHeight_cons,
      ih _ (fun x hx => hall x (List.mem_cons_of_mem _ hx))]
    have he : (bottomMeasureStep acc e).2 =
        (if e.isSpacer then acc.2.1 else max acc.2.1 e.height, acc.2.2) :=
      bottomMeasureStep_snd_of_not_conn acc e (hall e (List.mem_cons_self _ _))
    rw [he]

theorem bottomMeasureLoop_overhang_of_no_conn (es : List Measurable) :
    ∀ acc : Int × Int × Int, (∀ e ∈ es, e.mtype ≠ "next connection") →
      (bottomMeasureLoop acc es).2.2 = acc.2.2 := by
  induction es with
  | nil => intro acc _; rfl
  | cons e rest ih =>
    intro acc hall
    rw [bottomMeasureLoop, ih _ (fun x hx => hall x (List.mem_cons_of_mem _ hx))]
    have he : (bottomMeasureStep acc e).2 =
        (if e.isSpacer then acc.2.1 else max acc.2.1 e.height, acc.2.2) :=
      bottomMeasureStep_snd_of_not_conn acc e (hall e (List.mem_cons_self _ _))
    rw [he]

/-! Lemmas about the loop of `InputRow.measure`.  The step of that loop
builds its result tuple in one place, so the component equations are
definitional. -/

theorem inputMeasureStep_fst (acc : Int × Int × Int) (e : Measurable) :
    (inputMeasureStep acc e).1 = acc.1 + e.width := rfl

theorem inputMeasureStep_height (acc : Int × Int × Int) (e : Measurable) :
    (inputMeasureStep acc e).2.1 =
      if e.isSpacer then acc.2.1 else max acc.2.1 e.height := by
  cases hsp : e.isSpacer <;> simp [inputMeasureStep, hsp]

theorem inputMeasureStep_cbw (acc : Int × Int × Int) (e : Measurable) :
    (inputMeasureStep acc e).2.2 = acc.2.2 + connectedWidthContribution e := by
  simp only [inputMeasureStep, connectedWidthContribution]
  split
  · split
    · rfl
    · split
      · rfl
      · ring
  · ring

theorem inputMeasureLoop_fst (es : List Measurable) :
    ∀ acc : Int × Int × Int, (inputMeasureLoop acc es).1 = acc.1 + sumWidths es := by
  induction es with
  | nil => intro acc; simp [inputMeasureLoop, sumWidths]
  | cons e rest ih =>
    intro acc
    rw [inputMeasureLoop, ih, inputMeasureStep_fst, sumWidths_cons]
    ring

theorem inputMeasureLoop_height (es : List Measurable) :
    ∀ acc : Int × Int × Int,
      (inputMeasureLoop acc es).2.1 = maxNonSpacerHeight acc.2.1 es := by
  induction es with
  | nil => intro acc; rfl
  | cons e rest ih =>
    intro acc
    rw [inputMeasureLoop, maxNonSpacerHeight_cons, ih]
    have he : (inputMeasureStep acc e).2.1 =
        if e.isSpacer then acc.2.1 else max acc.2.1 e.height :=
      inputMeasureStep_height acc e
    rw [he]

theorem inputMeasureLoop_cbw (es : List Measurable) :
    ∀ acc : Int × Int × Int,
      (inputMeasureLoop acc es).2.2 = acc.2.2 + connectedWidthsSum es := by
  induction es with
  | nil => intro acc; simp [inputMeasureLoop, connectedWidthsSum]
  | cons e rest ih =>
    intro acc
    rw [inputMeasureLoop, ih, inputMeasureStep_cbw]
    simp [connectedWidthsSum]
    ring

/-- Row used in the witness for the amended claim C1: a hat-free top row. -/
def c1WitnessRow : TopRow := { TopRow.init with
  minWidth := 1,
  minHeight := 2,
  elements := [mkSquareCorner { squareCornerWidth := 3, squareCornerHeight := 4 },
    mkInRowSpacer {} 6] }

/-- C1 (amended): for TopRow, BottomRow and InputRow, measure sets the row's
width to its minWidth plus the sum of the widths of all child elements; the
height is the maximum of minHeight and the heights of the non-spacer child
elements for every InputRow, and for TopRow (resp. BottomRow) whenever no
child element has type 'hat' (resp. 'next connection') — a hat or a next
connection first adds its height to the running height before the max is
taken.  SpacerRow.measure is a no-op, so it does not set width or height at
all. -/
theorem measure_sum_max_spec :
    (∀ r : TopRow,
      (TopRow.measure r).width = r.minWidth + sumWidths r.elements ∧
      ((∀ e ∈ r.elements, e.mtype ≠ "hat") →
        (TopRow.measure r).height = maxNonSpacerHeight r.minHeight r.elements)) ∧
    (∀ r : BottomRow,
      (BottomRow.measure r).width = r.minWidth + sumWidths r.elements ∧
      ((∀ e ∈ r.elements, e.mtype ≠ "next connection") →
        (BottomRow.measure r).height = maxNonSpacerHeight r.minHeight r.elements)) ∧
    (∀ r : InputRow,
      (InputRow.measure r).width = r.minWidth + sumWidths r.elements ∧
      (InputRow.measure r).height = maxNonSpacerHeight r.minHeight r.elements) ∧
    (∀ r : SpacerRow, SpacerRow.measure r = r) := by
  refine ⟨fun r => ⟨?_, fun hno => ?_⟩, fun r => ⟨?_, fun hno => ?_⟩,
    fun r => ⟨?_, ?_⟩, fun r => rfl⟩
  · exact topMeasureLoop_fst r.elements (r.minWidth, r.minHeight, r.startY)
  · exact topMeasureLoop_height_of_no_hat r.elements
      (r.minWidth, r.minHeight, r.startY) hno
  · exact bottomMeasureLoop_fst r.elements (r.minWidth, r.minHeight, r.overhangY)
  · exact bottomMeasureLoop_height_of_no_conn r.elements
      (r.minWidth, r.minHeight, r.overhangY) hno
  · exact inputMeasureLoop_fst r.elements (r.minWidth, r.minHeight, 0)
  · exact inputMeasureLoop_height r.elements (r.minWidth, r.minHeight, 0)

/-- Witness for the amended claim C1 at a concrete hat-free top row: width
1 + (3 + 6) = 10 and height max(2, 4) = 4. -/
theorem measure_sum_max_spec_witness :
    (TopRow.measure c1WitnessRow).width =
      c1WitnessRow.minWidth + sumWidths c1WitnessRow.elements ∧
    (TopRow.measure c1WitnessRow).height =
      maxNonSpacerHeight c1WitnessRow.minHeight c1WitnessRow.elements :=
  ⟨(measure_sum_max_spec.1 c1WitnessRow).1,
   (measure_sum_max_spec.1 c1WitnessRow).2 (by decide)⟩

/-! Non-negativity lemmas. -/

theorem sumWidths_nonneg (es : List Measurable)
    (h : ∀ e ∈ es, 0 ≤ e.width) : 0 ≤ sumWidths es := by
  induction es with
  | nil => simp [sumWidths]
  | cons e rest ih =>
    rw [sumWidths_cons]
    have h1 := h e (List.mem_cons_self _ _)
    have h2 := ih (fun x hx => h x (List.mem_cons_of_mem _ hx))
    omega

theorem maxNonSpacerHeight_nonneg (es : List Measurable) :
    ∀ h0 : Int, 0 ≤ h0 → 0 ≤ maxNonSpacerHeight h0 es := by
  induction es with
  | nil => intro h0 h; exact h
  | cons e rest ih =>
    intro h0 h
    rw [maxNonSpacerHeight_cons]
    apply ih
    split
    · exact h
    · exact le_max_of_le_left h

theorem connectedWidthContribution_nonneg (e : Measurable)
    (hcb : 0 ≤ e.connectedBlockWidth)
    (hext : e.isInput = true → e.mtype = "external value input" →
      e.connectedBlockWidth ≠ 0 → e.connectionWidth ≤ e.connectedBlockWidth) :
    0 ≤ connectedWidthContribution e := by
  unfold connectedWidthContribution
  split
  · split
    · exact hcb
    · split
      · rename_i hin hst hc
        exact sub_nonneg.mpr (hext hin hc.1 hc.2)
      · exact le_refl 0
  · exact le_refl 0

theorem connectedWidthsSum_nonneg (es : List Measurable)
    (hcb : ∀ e ∈ es, 0 ≤ e.connectedBlockWidth)
    (hext : ∀ e ∈ es, e.isInput = true → e.mtype = "external value input" →
      e.connectedBlockWidth ≠ 0 → e.connectionWidth ≤ e.connectedBlockWidth) :
    0 ≤ connectedWidthsSum es := by
  induction es with
  | nil => simp [connectedWidthsSum]
  | cons e rest ih =>
    have h1 := connectedWidthContribution_nonneg e (hcb e (List.mem_cons_self _ _))
      (hext e (List.mem_cons_self _ _))
    have h2 := ih (fun x hx => hcb x (List.mem_cons_of_mem _ hx))
      (fun x hx => hext x (List.mem_cons_of_mem _ hx))
    simp only [connectedWidthsSum, List.map_cons, List.sum_cons] at h2 ⊢
    omega

theorem topMeasureStep_nonneg (acc : Int × Int × Int) (e : Measurable)
    (hw : 0 ≤ e.width) (hh : 0 ≤ e.height) (hs : 0 ≤ e.startY)
    (h1 : 0 ≤ acc.1) (h2 : 0 ≤ acc.2.1) (h3 : 0 ≤ acc.2.2) :
    0 ≤ (topMeasureStep acc e).1 ∧ 0 ≤ (topMeasureStep acc e).2.1 ∧
      0 ≤ (topMeasureStep acc e).2.2 := by
  by_cases hm : e.mtype = "hat"
  · rw [topMeasureStep_of_hat acc e hm]
    exact ⟨by omega, le_max_of_le_right hh, hs⟩
  · have hsnd := topMeasureStep_snd_of_not_hat acc e hm
    refine ⟨by rw [topMeasureStep_fst]; omega, ?_, ?_⟩
    · rw [show (topMeasureStep acc e).2.1 = ((topMeasureStep acc e).2).1 from rfl,
        hsnd]
      dsimp only
      split
      · exact h2
      · exact le_max_of_le_left h2
    · rw [show (topMeasureStep acc e).2.2 = ((topMeasureStep acc e).2).2 from rfl,
        hsnd]
      exact h3

theorem topMeasureLoop_nonneg (es : List Measurable) :
    ∀ acc : Int × Int × Int,
      (∀ e ∈ es, 0 ≤ e.width ∧ 0 ≤ e.height ∧ 0 ≤ e.startY) →
      0 ≤ acc.1 → 0 ≤ acc.2.1 → 0 ≤ acc.2.2 →
      0 ≤ (topMeasureLoop acc es).1 ∧ 0 ≤ (topMeasureLoop acc es).2.1 ∧
        0 ≤ (topMeasureLoop acc es).2.2 := by
  induction es with
  | nil => intro acc _ h1 h2 h3; exact ⟨h1, h2, h3⟩
  | cons e rest ih =>
    intro acc hall h1 h2 h3
    obtain ⟨hw, hh, hs⟩ := hall e (List.mem_cons_self _ _)
    obtain ⟨s1, s2, s3⟩ := topMeasureStep_nonneg acc e hw hh hs h1 h2 h3
    rw [topMeasureLoop]
    exact ih (topMeasureStep acc e)
      (fun x hx => hall x (List.mem_cons_of_mem _ hx)) s1 s2 s3

theorem bottomMeasureStep_nonneg (acc : Int × Int × Int) (e : Measurable)
    (hw : 0 ≤ e.width) (hh : 0 ≤ e.height)
    (h1 : 0 ≤ acc.1) (h2 : 0 ≤ acc.2.1) (h3 : 0 ≤ acc.2.2) :
    0 ≤ (bottomMeasureStep acc e).1 ∧ 0 ≤ (bottomMeasureStep acc e).2.1 ∧
      0 ≤ (bottomMeasureStep acc e).2.2 := by
  by_cases hm : e.mtype = "next connection"
  · rw [bottomMeasureStep_of_conn acc e hm]
    exact ⟨by omega, le_max_of_le_right hh, hh⟩
  · have hsnd := bottomMeasureStep_snd_of_not_conn acc e hm
    refine ⟨by rw [bottomMeasureStep_fst]; omega, ?_, ?_⟩
    · rw [show (bottomMeasureStep acc e).2.1 = ((bottomMeasureStep acc e).2).1 from rfl,
        hsnd]
      dsimp only
      split
      · exact h2
      · exact le_max_of_le_left h2
    · rw [show (bottomMeasureStep acc e).2.2 = ((bottomMeasureStep acc e).2).2 from rfl,
        hsnd]
      exact h3

theorem bottomMeasureLoop_nonneg (es : List Measurable) :
    ∀ acc : Int × Int × Int,
      (∀ e ∈ es, 0 ≤ e.width ∧ 0 ≤ e.height) →
      0 ≤ acc.1 → 0 ≤ acc.2.1 → 0 ≤ acc.2.2 →
      0 ≤ (bottomMeasureLoop acc es).1 ∧ 0 ≤ (bottomMeasureLoop acc es).2.1 ∧
        0 ≤ (bottomMeasureLoop acc es).2.2 := by
  induction es with
  | nil => intro acc _ h1 h2 h3; exact ⟨h1, h2, h3⟩
  | cons e rest ih =>
    intro acc hall h1 h2 h3
    obtain ⟨hw, hh⟩ := hall e (List.mem_cons_self _ _)
    obtain ⟨s1, s2, s3⟩ := bottomMeasureStep_nonneg acc e hw hh h1 h2 h3
    rw [bottomMeasureLoop]
    exact ih (bottomMeasureStep acc e)
      (fun x hx => hall x (List.mem_cons_of_mem _ hx)) s1 s2 s3

/-- Element used in the counterexample to claim C2: an external value input
whose connected block width 1 is smaller than its connection width 5; all of
its fields are non-negative. -/
def c2CexElem : Measurable :=
  { mtype := "external value input", isInput := true, width := 0, height := 0,
    startY := 0, connectedBlockWidth := 1, connectionWidth := 5 }

/-- Row used in the counterexample to claim C2. -/
def c2CexRow : InputRow := { InputRow.init with elements := [c2CexElem] }

/-- C2 counterexample: an input row satisfying every hypothesis of the claim
(minWidth, minHeight non-negative; every child element has non-negative
width, height, connectedBlockWidth, connectionWidth and startY) whose
widthWithConnectedBlocks after measure is 1 - 5 = -4 < 0, because
`InputRow.measure` adds `connectedBlockWidth - connectionWidth` for an
external value input with nonzero connected block width. -/
theorem measure_nonneg_claim_cex :
    (0 ≤ c2CexRow.minWidth ∧ 0 ≤ c2CexRow.minHeight ∧
      ∀ e ∈ c2CexRow.elements, 0 ≤ e.width ∧ 0 ≤ e.height ∧
        0 ≤ e.connectedBlockWidth ∧ 0 ≤ e.connectionWidth ∧ 0 ≤ e.startY) ∧
    ¬ 0 ≤ (InputRow.measure c2CexRow).widthWithConnectedBlocks := by
  refine ⟨⟨by decide, by decide, by decide⟩, by decide⟩

/-- C2 (amended): after measure all the claim's numeric fields are
non-negative, provided additionally that the row's own pre-measure startY
(TopRow), overhangY (BottomRow), or constructed width and height (SpacerRow)
are non-negative, and that every external value input element with a nonzero
connected block width has connectionWidth ≤ connectedBlockWidth. -/
theorem measure_nonneg_spec :
    (∀ r : TopRow, 0 ≤ r.minWidth → 0 ≤ r.minHeight → 0 ≤ r.startY →
      (∀ e ∈ r.elements, 0 ≤ e.width ∧ 0 ≤ e.height ∧ 0 ≤ e.startY) →
      0 ≤ (TopRow.measure r).width ∧ 0 ≤ (TopRow.measure r).height ∧
        0 ≤ (TopRow.measure r).widthWithConnectedBlocks ∧
        0 ≤ (TopRow.measure r).startY) ∧
    (∀ r : BottomRow, 0 ≤ r.minWidth → 0 ≤ r.minHeight → 0 ≤ r.overhangY →
      (∀ e ∈ r.elements, 0 ≤ e.width ∧ 0 ≤ e.height) →
      0 ≤ (BottomRow.measure r).width ∧ 0 ≤ (BottomRow.measure r).height ∧
        0 ≤ (BottomRow.measure r).widthWithConnectedBlocks ∧
        0 ≤ (BottomRow.measure r).overhangY) ∧
    (∀ r : InputRow, 0 ≤ r.minWidth → 0 ≤ r.minHeight →
      (∀ e ∈ r.elements, 0 ≤ e.width ∧ 0 ≤ e.height ∧
        0 ≤ e.connectedBlockWidth ∧ 0 ≤ e.connectionWidth) →
      (∀ e ∈ r.elements, e.isInput = true → e.mtype = "external value input" →
        e.connectedBlockWidth ≠ 0 → e.connectionWidth ≤ e.connectedBlockWidth) →
      0 ≤ (InputRow.measure r).width ∧ 0 ≤ (InputRow.measure r).height ∧
        0 ≤ (InputRow.measure r).widthWithConnectedBlocks) ∧
    (∀ (c : Constants) (hgt wdt : Int), 0 ≤ hgt → 0 ≤ wdt →
      0 ≤ (SpacerRow.measure (SpacerRow.make c hgt wdt)).width ∧
        0 ≤ (SpacerRow.measure (SpacerRow.make c hgt wdt)).height ∧
        0 ≤ (SpacerRow.measure (SpacerRow.make c hgt wdt)).widthWithConnectedBlocks) := by
  refine ⟨fun r hmw hmh hsy hall => ?_, fun r hmw hmh hoy hall => ?_,
    fun r hmw hmh hall hext => ?_, fun c hgt wdt hh hw => ⟨hw, hh, le_refl 0⟩⟩
  · obtain ⟨s1, s2, s3⟩ := topMeasureLoop_nonneg r.elements
      (r.minWidth, r.minHeight, r.startY) hall hmw hmh hsy
    exact ⟨s1, s2, s1, s3⟩
  · obtain ⟨s1, s2, s3⟩ := bottomMeasureLoop_nonneg r.elements
      (r.minWidth, r.minHeight, r.overhangY) hall hmw hmh hoy
    exact ⟨s1, s2, s1, s3⟩
  · have hwidth : (InputRow.measure r).width = r.minWidth + sumWidths r.elements :=
      inputMeasureLoop_fst r.elements (r.minWidth, r.minHeight, 0)
    have hheight : (InputRow.measure r).height =
        maxNonSpacerHeight r.minHeight r.elements :=
      inputMeasureLoop_height r.elements (r.minWidth, r.minHeight, 0)
    have hwcb : (InputRow.measure r).widthWithConnectedBlocks =
        (InputRow.measure r).width + ((0 : Int) + connectedWidthsSum r.elements) := by
      have := inputMeasureLoop_cbw r.elements (r.minWidth, r.minHeight, 0)
      rw [hwidth]
      rw [show (InputRow.measure r).widthWithConnectedBlocks =
        (inputMeasureLoop (r.minWidth, r.minHeight, 0) r.elements).1 +
          (inputMeasureLoop (r.minWidth, r.minHeight, 0) r.elements).2.2 from rfl,
        this, inputMeasureLoop_fst]
    have hsw : 0 ≤ sumWidths r.elements :=
      sumWidths_nonneg r.elements (fun e he => (hall e he).1)
    have hcs : 0 ≤ connectedWidthsSum r.elements :=
      connectedWidthsSum_nonneg r.elements (fun e he => (hall e he).2.2.1)
        (fun e he => hext e he)
    refine ⟨by rw [hwidth]; omega,
      by rw [hheight]; exact maxNonSpacerHeight_nonneg r.elements r.minHeight hmh,
      by rw [hwcb, hwidth]; omega⟩

/-- Row used in the witness for the amended claim C2. -/
def c2WitnessRow : TopRow := { TopRow.init with
  minWidth := 1,
  minHeight := 2,
  startY := 3,
  elements := [mkHat { hatWidth := 4, hatHeight := 5, hatStartY := 6 }] }

/-- Witness for the amended claim C2 at a concrete top row with a hat. -/
theorem measure_nonneg_spec_witness :
    0 ≤ (TopRow.measure c2WitnessRow).width ∧
    0 ≤ (TopRow.measure c2WitnessRow).height ∧
    0 ≤ (TopRow.measure c2WitnessRow).widthWithConnectedBlocks ∧
    0 ≤ (TopRow.measure c2WitnessRow).startY :=
  measure_nonneg_spec.1 c2WitnessRow (by decide) (by decide) (by decide) (by decide)

/-- C3: for every block with a hat, the top row's startY is the hat's
startY — `TopRow.populate` copies the created hat's startY to the row, and
`TopRow.measure` copies the startY of the (unique) element of type 'hat',
whatever elements precede it. -/
theorem topRow_hat_startY_spec :
    (∀ (c : Constants) (startHat : Bool) (b : Block) (r : TopRow),
      b.hasHat startHat = true →
      (TopRow.populate c startHat b r).startY = (mkHat c).startY) ∧
    (∀ (r : TopRow) (pre : List Measurable) (hat : Measurable)
        (post : List Measurable),
      r.elements = pre ++ hat :: post → hat.mtype = "hat" →
      (∀ e ∈ post, e.mtype ≠ "hat") →
      (TopRow.measure r).startY = hat.startY) := by
  constructor
  · intro c startHat b r hhat
    simp [TopRow.populate, hhat, apply_ite TopRow.startY]
  · intro r pre hat post helems hhat hpost
    show (topMeasureLoop (r.minWidth, r.minHeight, r.startY) r.elements).2.2 =
      hat.startY
    rw [helems, topMeasureLoop_append, topMeasureLoop,
      topMeasureLoop_startY_of_no_hat post _ hpost,
      topMeasureStep_of_hat _ _ hhat]

/-- Constants used in the witness for claim C3. -/
def c3Consts : Constants := { hatStartY := 7 }

/-- Block used in the witness for claim C3: a block whose `hat` field is the
string 'cap'. -/
def c3Block : Block := { hat := some "cap" }

/-- Row used in the witness for claim C3: a corner followed by a hat with
startY 9. -/
def c3Row : TopRow := { TopRow.init with
  elements := [mkSquareCorner {}, mkHat { hatStartY := 9 }] }

/-- Witness for claim C3 at a concrete block and a concrete row. -/
theorem topRow_hat_startY_witness :
    (TopRow.populate c3Consts false c3Block TopRow.init).startY =
      (mkHat c3Consts).startY ∧
    (TopRow.measure c3Row).startY = (mkHat { hatStartY := 9 }).startY :=
  ⟨topRow_hat_startY_spec.1 c3Consts false c3Block TopRow.init (by decide),
   topRow_hat_startY_spec.2 c3Row [mkSquareCorner {}] (mkHat { hatStartY := 9 })
     [] rfl rfl (by decide)⟩

/-- C4: `populate` chooses the decorative elements from the block's flags
alone.  `TopRow.populate` pushes exactly one corner first — square iff the
block has an output connection, has a hat, or its previous block's next
block is the block itself, round otherwise — then a hat if the block has a
hat, else a previous connection if the block has one.  `BottomRow.populate`
pushes one corner (square iff the block has an output connection or a next
block) followed by a next connection iff the block has one. -/
theorem populate_elements_spec :
    (∀ (c : Constants) (startHat : Bool) (b : Block) (r : TopRow),
      (TopRow.populate c startHat b r).elements =
        r.elements ++
          [if b.hasOutputConnection || b.hasHat startHat ||
              (b.hasPrevBlock && b.prevNextIsSelf) then mkSquareCorner c
            else mkRoundCorner c] ++
          (if b.hasHat startHat then [mkHat c]
            else if b.hasPreviousConnection then [mkPreviousConnection c]
            else [])) ∧
    (∀ (c : Constants) (b : Block) (r : BottomRow),
      (BottomRow.populate c b r).elements =
        r.elements ++
          [if b.hasOutputConnection || b.hasNextBlock then mkSquareCorner c
            else mkRoundCorner c] ++
          (if b.hasNextConnection then [mkNextConnection c] else [])) := by
  constructor
  · intro c startHat b r
    cases ho : b.hasOutputConnection <;> cases hh : b.hasHat startHat <;>
      cases hpb : b.hasPrevBlock <;> cases hpn : b.prevNextIsSelf <;>
      cases hpc : b.hasPreviousConnection <;>
      simp [TopRow.populate, ho, hh, hpb, hpn, hpc,
        apply_ite TopRow.elements, List.append_assoc]
  · intro c b r
    cases ho : b.hasOutputConnection <;> cases hnb : b.hasNextBlock <;>
      cases hnc : b.hasNextConnection <;>
      simp [BottomRow.populate, ho, hnb, hnc, apply_ite BottomRow.elements,
        apply_ite BottomRow.hasNextConnection, List.append_assoc]

/-- C5: calling `measure` on a base `Row` always throws the abstract-method
error, whatever the row's state; no row is returned (so no field is
modified). -/
theorem base_measure_throws :
    ∀ r : Row,
      Row.measureBase r =
        Except.error "Unexpected attempt to measure a base Row." ∧
      RowObj.measure (RowObj.base r) =
        Except.error "Unexpected attempt to measure a base Row." :=
  fun _ => ⟨rfl, rfl⟩

/-- C6: `measure` of every concrete row object (top, bottom, spacer or input
row — anything but a base `Row`) returns normally, with no error on any
branch. -/
theorem concrete_measure_no_failure :
    ∀ ro : RowObj, (∀ r : Row, ro ≠ RowObj.base r) →
      ∃ ro2 : RowObj, RowObj.measure ro = Except.ok ro2 := by
  intro ro hnb
  cases ro with
  | base r => exact absurd rfl (hnb r)
  | top r => exact ⟨_, rfl⟩
  | bottom r => exact ⟨_, rfl⟩
  | spacer r => exact ⟨_, rfl⟩
  | input r => exact ⟨_, rfl⟩

/-- Witness for claim C6 at a concrete input row. -/
theorem concrete_measure_no_failure_witness :
    ∃ ro2 : RowObj, RowObj.measure (RowObj.input InputRow.init) = Except.ok ro2 :=
  concrete_measure_no_failure (RowObj.input InputRow.init)
    (fun _ h => RowObj.noConfusion h)

/-- C7: `measure` only changes the row's own numeric size fields — width,
height, widthWithConnectedBlocks, plus startY on TopRow and overhangY on
BottomRow; the element list and every other field are untouched, and
`SpacerRow.measure` changes nothing at all. -/
theorem measure_frame_spec :
    (∀ r : TopRow, ∃ w h wb s, TopRow.measure r = { r with
      width := w, height := h, widthWithConnectedBlocks := wb, startY := s }) ∧
    (∀ r : BottomRow, ∃ w h wb oy, BottomRow.measure r = { r with
      width := w, height := h, widthWithConnectedBlocks := wb,
      overhangY := oy }) ∧
    (∀ r : InputRow, ∃ w h wb, InputRow.measure r = { r with
      width := w, height := h, widthWithConnectedBlocks := wb }) ∧
    (∀ r : SpacerRow, SpacerRow.measure r = r) :=
  ⟨fun _ => ⟨_, _, _, _, rfl⟩, fun _ => ⟨_, _, _, _, rfl⟩,
   fun _ => ⟨_, _, _, rfl⟩, fun _ => rfl⟩

/-- C8: after `TopRow.measure` and `BottomRow.measure` the row's
widthWithConnectedBlocks equals its width; `SpacerRow.measure` changes
nothing; only `InputRow.measure` can make them differ, and it does so by
exactly the connected-block widths of statement and external value
inputs. -/
theorem widthWithConnectedBlocks_spec :
    (∀ r : TopRow,
      (TopRow.measure r).widthWithConnectedBlocks = (TopRow.measure r).width) ∧
    (∀ r : BottomRow,
      (BottomRow.measure r).widthWithConnectedBlocks =
        (BottomRow.measure r).width) ∧
    (∀ r : SpacerRow, SpacerRow.measure r = r) ∧
    (∀ r : InputRow,
      (InputRow.measure r).widthWithConnectedBlocks =
        (InputRow.measure r).width + connectedWidthsSum r.elements) := by
  refine ⟨fun _ => rfl, fun _ => rfl, fun _ => rfl, fun r => ?_⟩
  have h1 : (InputRow.measure r).widthWithConnectedBlocks =
      (inputMeasureLoop (r.minWidth, r.minHeight, 0) r.elements).1 +
        (inputMeasureLoop (r.minWidth, r.minHeight, 0) r.elements).2.2 := rfl
  have h2 : (InputRow.measure r).width =
      (inputMeasureLoop (r.minWidth, r.minHeight, 0) r.elements).1 := rfl
  rw [h1, h2, inputMeasureLoop_cbw]
  simp

theorem findSpacerByRef_eq_head (es : List Measurable) :
    findSpacerByRef es = es.head? := by
  cases es with
  | nil => rfl
  | cons e rest => simp [findSpacerByRef, isSpacerMethodRef]

/-- C9: because the loops of `getFirstSpacer` and `getLastSpacer` test the
method reference `elem.isSpacer` — truthy for every measurable — instead of
calling it, they return the first (resp. last) element of the row whether or
not it is a spacer, and null when the element list is empty. -/
theorem getSpacer_first_last_spec :
    ∀ r : Row, r.getFirstSpacer = r.elements.head? ∧
      r.getLastSpacer = r.elements.getLast? := by
  intro r
  refine ⟨findSpacerByRef_eq_head r.elements, ?_⟩
  rw [Row.getLastSpacer, findSpacerByRef_eq_head, List.head?_reverse]

/-- C10: a SpacerRow constructed with (height, width) has exactly one
element, an in-row spacer of that width, and `measure` is a no-op: after any
number of measure calls its width and height are still the construction
values. -/
theorem spacerRow_make_measure_spec :
    ∀ (c : Constants) (hgt wdt : Int),
      (SpacerRow.make c hgt wdt).elements = [mkInRowSpacer c wdt] ∧
      ∀ n : Nat,
        (SpacerRow.measure^[n] (SpacerRow.make c hgt wdt)).width = wdt ∧
        (SpacerRow.measure^[n] (SpacerRow.make c hgt wdt)).height = hgt := by
  intro c hgt wdt
  refine ⟨rfl, fun n => ?_⟩
  have hid : SpacerRow.measure^[n] (SpacerRow.make c hgt wdt) =
      SpacerRow.make c hgt wdt := by
    rw [show SpacerRow.measure = id from rfl, Function.iterate_id, id_eq]
  rw [hid]
  exact ⟨rfl, rfl⟩

end Blockly
